import Mathlib

/-!
Verification development for the compliance-evidence collection scripts
(`collect.py` and `generate_summary.py`).

The Python sources are embedded shallowly:
* pure computations (summary counters, checksum, archive naming) become
  Lean functions over explicit data models of the JSON artifacts;
* the threaded collector engine of `collect.py` becomes explicit state
  passing over an effect record (files written, log lines emitted), with
  the external facilities (subprocess execution, `platform.system()`,
  `shutil.which`, boto3 clients) supplied as an environment whose calls
  may either return or raise (`Except`);
* `main`'s directory-creation / collector-execution ordering becomes an
  event trace.

Machine integers do not occur in the scripts except inside SHA-256, which
is modelled bit-faithfully on `Nat` with explicit reduction modulo 2^32.
-/

/-! ## SHA-256 (model of `hashlib.sha256`)

`generate_summary.py` delegates hashing to `hashlib`.  The hash object is
modelled by its documented semantics: `update` concatenates bytes into the
message, `hexdigest` returns the lowercase hex encoding of the SHA-256 of
the accumulated message.  SHA-256 itself is implemented concretely
(FIPS 180-4) so every definition stays executable. -/

def w32 (x : Nat) : Nat := x % 4294967296

def rotr (n x : Nat) : Nat := (x / 2 ^ n + x % 2 ^ n * 2 ^ (32 - n)) % 4294967296

def shr (n x : Nat) : Nat := x / 2 ^ n

def bnot32 (x : Nat) : Nat := 4294967295 - x

def chf (x y z : Nat) : Nat := (x &&& y) ^^^ (bnot32 x &&& z)

def majf (x y z : Nat) : Nat := (x &&& y) ^^^ (x &&& z) ^^^ (y &&& z)

def bigSigma0 (x : Nat) : Nat := rotr 2 x ^^^ rotr 13 x ^^^ rotr 22 x

def bigSigma1 (x : Nat) : Nat := rotr 6 x ^^^ rotr 11 x ^^^ rotr 25 x

def smallSigma0 (x : Nat) : Nat := rotr 7 x ^^^ rotr 18 x ^^^ shr 3 x

def smallSigma1 (x : Nat) : Nat := rotr 17 x ^^^ rotr 19 x ^^^ shr 10 x

def sha256K : List Nat :=
  [1116352408, 1899447441, 3049323471, 3921009573, 961987163,
   1508970993, 2453635748, 2870763221, 3624381080, 310598401,
   607225278, 1426881987, 1925078388, 2162078206, 2614888103,
   3248222580, 3835390401, 4022224774, 264347078, 604807628,
   770255983, 1249150122, 1555081692, 1996064986, 2554220882,
   2821834349, 2952996808, 3210313671, 3336571891, 3584528711,
   113926993, 338241895, 666307205, 773529912, 1294757372,
   1396182291, 1695183700, 1986661051, 2177026350, 2456956037,
   2730485921, 2820302411, 3259730800, 3345764771, 3516065817,
   3600352804, 4094571909, 275423344, 430227734, 506948616,
   659060556, 883997877, 958139571, 1322822218, 1537002063,
   1747873779, 1955562222, 2024104815, 2227730452, 2361852424,
   2428436474, 2756734187, 3204031479, 3329325298]

def sha256IV : List Nat :=
  [1779033703, 3144134277, 1013904242, 2773480762,
   1359893119, 2600822924, 528734635, 1541459225]

/-- Big-endian byte expansion: `beBytes n v` is the `n`-byte big-endian
encoding of `v % 2^(8n)`. -/
def beBytes : Nat → Nat → List Nat
  | 0, _ => []
  | k + 1, v => (v / 2 ^ (8 * k)) % 256 :: beBytes k v

/-- SHA-256 padding (FIPS 180-4 §5.1.1): append `0x80`, zero bytes up to
56 mod 64, then the bit length as 8 big-endian bytes. -/
def padMessage (msg : List Nat) : List Nat :=
  msg ++ 0x80 :: List.replicate ((119 - msg.length % 64) % 64) 0 ++ beBytes 8 (8 * msg.length)

/-- Split a byte list into consecutive blocks of `n` elements (the last
block may be shorter); for `n = 0` the head element alone is taken, a
degenerate case never used here. -/
def toBlocks (n : Nat) : List α → List (List α)
  | [] => []
  | x :: xs => (x :: xs).take n :: toBlocks n (xs.drop (n - 1))
termination_by l => l.length
decreasing_by
  simp only [List.length_drop, List.length_cons]
  omega

/-- Group bytes into big-endian 32-bit words. -/
def toWords : List Nat → List Nat
  | a :: b :: c :: d :: rest => (((a * 256 + b) * 256 + c) * 256 + d) :: toWords rest
  | _ => []

/-- One step of the message-schedule extension. -/
def scheduleStep (ws : List Nat) : List Nat :=
  let n := ws.length
  ws ++ [w32 (smallSigma1 (ws.getD (n - 2) 0) + ws.getD (n - 7) 0 +
              smallSigma0 (ws.getD (n - 15) 0) + ws.getD (n - 16) 0)]

def iterateFn (f : α → α) : Nat → α → α
  | 0, a => a
  | n + 1, a => iterateFn f n (f a)

def fullSchedule (block : List Nat) : List Nat := iterateFn scheduleStep 48 block

/-- One round of the SHA-256 compression function; the state is the list
`[a, b, c, d, e, f, g, h]`. -/
def compressStep (st : List Nat) (kw : Nat × Nat) : List Nat :=
  match st with
  | [a, b, c, d, e, f, g, h] =>
    let t1 := w32 (h + bigSigma1 e + chf e f g + kw.1 + kw.2)
    let t2 := w32 (bigSigma0 a + majf a b c)
    [w32 (t1 + t2), a, b, c, w32 (d + t1), e, f, g]
  | other => other

def compressBlock (st : List Nat) (block : List Nat) : List Nat :=
  let fin := (sha256K.zip (fullSchedule block)).foldl compressStep st
  (st.zip fin).map (fun p => w32 (p.1 + p.2))

/-- SHA-256 digest of a byte list, as 32 bytes. -/
def sha256bytes (msg : List Nat) : List Nat :=
  ((((toBlocks 64 (padMessage msg)).map toWords).foldl compressBlock sha256IV).map
    (beBytes 4)).flatten

def hexDigit (n : Nat) : Char := if n < 10 then Char.ofNat (48 + n) else Char.ofNat (87 + n)

def byteHex (b : Nat) : List Char := [hexDigit (b / 16), hexDigit (b % 16)]

/-- Lowercase hex SHA-256 of a byte list: the reference digest a verifier
recomputes over the archive bytes. -/
def sha256hex (msg : List Nat) : String := ⟨((sha256bytes msg).map byteHex).flatten⟩

/-! ## `sha256_checksum` and the manifest (generate_summary.py) -/

/-- `sha256_checksum(file_path)` of `generate_summary.py`: read the file
in 4096-byte blocks, feed each block to the hash object with `update`,
return `hexdigest()`.  The hash object is its accumulated message. -/
def sha256_checksum (fileBytes : List Nat) : String :=
  sha256hex ((toBlocks 4096 fileBytes).foldl (fun buf block => buf ++ block) [])

/-- The line written to `manifest.txt`: `"<archive filename> SHA256: <hex>\n"`. -/
def manifestLine (archiveName digest : String) : String :=
  archiveName ++ " SHA256: " ++ digest ++ "\n"

/-- The sealing tail of `generate_summary.main`: compute the checksum of
the produced archive and write the manifest record binding the archive's
filename to that hex digest. -/
def seal_manifest (archiveName : String) (archiveBytes : List Nat) : String :=
  manifestLine archiveName (sha256_checksum archiveBytes)

/-! ## Python string primitives

ASCII models of the `str` methods the scripts use: `.lower()`, `.strip()`,
the substring test `in`, and line iteration over an open text file. -/

/-- Python default-whitespace test (`str.strip()` with no argument). -/
def pyIsSpace (c : Char) : Bool :=
  c == ' ' || c == '\t' || c == '\n' || c == '\r' || c == '\x0b' || c == '\x0c'

/-- Python `str.strip()` on a character list: drop whitespace from both ends. -/
def pyStripList (l : List Char) : List Char :=
  ((l.dropWhile pyIsSpace).reverse.dropWhile pyIsSpace).reverse

/-- Python `str.strip()`. -/
def pyStrip (s : String) : String := ⟨pyStripList s.toList⟩

/-- Python `str.lower()` on one character (ASCII range, which is all the
scripts compare against). -/
def pyLower (c : Char) : Char :=
  if 'A' ≤ c && c ≤ 'Z' then Char.ofNat (c.toNat + 32) else c

/-- Python `str.lower()`. -/
def pyLowerStr (s : String) : String := ⟨s.toList.map pyLower⟩

/-- Does `h` start with `n`? -/
def leadsWith : List Char → List Char → Bool
  | [], _ => true
  | _ :: _, [] => false
  | a :: as, b :: bs => a == b && leadsWith as bs

/-- Substring containment on character lists (Python `needle in hay`). -/
def hasSub (needle : List Char) : List Char → Bool
  | [] => needle.isEmpty
  | c :: rest => leadsWith needle (c :: rest) || hasSub needle rest

/-- Python `needle in hay` on strings. -/
def pyInStr (needle hay : String) : Bool := hasSub needle.toList hay.toList

/-- Number of lines Python yields when iterating an open text file with
contents `s`: every `'\n'` ends a line, plus a final unterminated line
when the text is non-empty and does not end in `'\n'`. -/
def pyLineCount (s : String) : Nat :=
  match s.toList.getLast? with
  | none => 0
  | some c => (s.toList.filter (fun x => x == '\n')).length + (if c == '\n' then 0 else 1)

/-! ## Summary aggregator (generate_summary.py)

The JSON artifacts are modelled by their parsed shape.  A `.get(key)`
becomes an `Option` field; a `.get(key, default)` becomes `Option.getD`.
Each counter takes an `Option` input: `none` models the `except` branch
(missing or unparseable artifact), in which the code returns the counter
initialised to `0`. -/

/-- One entry of `s3_buckets.json` (one bucket record); `Name` may be
absent, `b.get('Name', '')` defaults it to the empty string. -/
structure Bucket where
  name : Option String
deriving DecidableEq

/-- `count_public_s3_buckets`: `sum(1 for b in buckets if 'public' in
b.get('Name', '').lower())`; `0` when the file is missing or unreadable. -/
def count_public_s3_buckets : Option (List Bucket) → Nat
  | none => 0
  | some buckets =>
    buckets.foldl
      (fun count b => if pyInStr "public" (pyLowerStr (b.name.getD "")) then count + 1 else count) 0

/-- One element of a permission's `IpRanges`; `CidrIp` may be absent. -/
structure IpRange where
  cidrIp : Option String
deriving DecidableEq

/-- One element of a group's `IpPermissions` (one inbound rule). -/
structure IpPermission where
  ipRanges : List IpRange
deriving DecidableEq

/-- One entry of `security_groups.json`. -/
structure SecurityGroup where
  ipPermissions : List IpPermission
deriving DecidableEq

/-- `count_open_security_groups`: the triple loop over groups, their
`IpPermissions` and each permission's `IpRanges`, incrementing once per
range whose `CidrIp` equals `0.0.0.0/0`; `0` when the file is missing or
unreadable. -/
def count_open_security_groups : Option (List SecurityGroup) → Nat
  | none => 0
  | some sgs =>
    sgs.foldl
      (fun count sg =>
        sg.ipPermissions.foldl
          (fun count perm =>
            perm.ipRanges.foldl
              (fun count ipRange =>
                if ipRange.cidrIp == some "0.0.0.0/0" then count + 1 else count)
              count)
          count)
      0

/-- The contents of the `local/` evidence directory as seen by
`summarize_local`: for each artifact, `none` when the file does not exist
and `some text` when it does. -/
structure LocalArtifacts where
  processes : Option String
  crontab : Option String
  packages : Option String
deriving DecidableEq

/-- The dictionary `summarize_local` builds. -/
structure LocalSummary where
  process_count : Nat
  crontab_present : Bool
  package_count : Nat
deriving DecidableEq

/-- `summarize_local`: line counts for `processes.txt` and `packages.txt`,
and `crontab_present = bool(crontab.txt contents .strip())`, with missing
files reported as `0` / `False`. -/
def summarize_local (d : LocalArtifacts) : LocalSummary :=
  { process_count := match d.processes with
      | some s => pyLineCount s
      | none => 0
    crontab_present := match d.crontab with
      | some s => !(pyStripList s.toList).isEmpty
      | none => false
    package_count := match d.packages with
      | some s => pyLineCount s
      | none => 0 }

/-! ## Archiver (zip_evidence in collect.py, create_archive in
generate_summary.py)

A workspace is its file tree: a list of (path relative to the workspace
root, contents) pairs.  Compression itself is the external library; what
the scripts determine is the archive's filename and which entries, under
which names, go into it. -/

/-- One file of the workspace tree, with its path relative to the
workspace root. -/
structure WsFile where
  path : String
  content : String
deriving DecidableEq

/-- `zip_evidence(output_path)` = `shutil.make_archive(str(output_path),
'zip', str(output_path))`: the archive lands at `<output_path>.zip` and
holds the tree rooted at `output_path` with paths relative to that root. -/
def zip_evidence (outputPath : String) (files : List WsFile) : String × List WsFile :=
  (outputPath ++ ".zip", files)

/-- `create_archive(output_path)` of `generate_summary.py`: the archive is
named `audit_evidence_{datetime.now():%Y-%m-%d_%H-%M-%S}_{hostname}.tar.gz`
and `tar.add(output_path, arcname=output_path.name)` stores the whole tree
with each entry renamed under `output_path.name/`.  `outputName` is
`output_path.name`, `timestamp` and `hostname` are the values of
`datetime.now().strftime(...)` and `socket.gethostname()` at sealing
time. -/
def create_archive (files : List WsFile) (outputName timestamp hostname : String) :
    String × List WsFile :=
  ("audit_evidence_" ++ timestamp ++ "_" ++ hostname ++ ".tar.gz",
   files.map fun f => ⟨outputName ++ "/" ++ f.path, f.content⟩)

/-! ## Execution engine (collect.py)

The collectors' observable behaviour is their effect on the workspace and
the log.  `Eff` records both.  External facilities are an environment:
each call either returns a value (`Except.ok`) or raises a Python
exception carrying a message (`Except.error`).  Exceptions caught by a
`try` in the source are consumed at the same place in the embedding;
exceptions with no surrounding `try` propagate as the `Except.error` of
the enclosing function.  File writes are effect recording and always
succeed in this model (in the source, a write failure inside
`run_command` is caught by `run_command`'s own `try`, so no write failure
can escape it either). -/

inductive LogLevel where
  | info
  | warning
  | error
deriving DecidableEq

/-- Accumulated observable effects of a run: files written (path,
contents) and log lines emitted (level, message), both in order. -/
structure Eff where
  files : List (String × String)
  logs : List (LogLevel × String)
deriving DecidableEq

def Eff.empty : Eff := ⟨[], []⟩

def Eff.write (e : Eff) (path content : String) : Eff :=
  ⟨e.files ++ [(path, content)], e.logs⟩

def Eff.log (e : Eff) (lvl : LogLevel) (msg : String) : Eff :=
  ⟨e.files, e.logs ++ [(lvl, msg)]⟩

/-- `subprocess.run(..., capture_output=True, text=True)`: a completed
process, whatever its exit status. -/
structure ExecResult where
  stdout : String
  stderr : String
  returncode : Int
deriving DecidableEq

/-- External facilities the local collectors call: `platform.system()`,
`shutil.which(tool)` (`true` iff the tool is on PATH), and
`subprocess.run(command, shell=True, ...)`. -/
structure LocalEnv where
  psystem : Except String String
  whichTool : String → Except String Bool
  subprocessRun : String → Except String ExecResult

/-- The `[STDERR]` section `run_command` appends when the completed
process produced any stderr text. -/
def stderrSection (stderr : String) : String :=
  if stderr = "" then "" else "\n[STDERR]\n" ++ stderr

/-- `run_command(command, output_file)`: run the shell command, write
`result.stdout or ""` followed, when stderr is non-empty, by the
`[STDERR]` section; any exception in the block is caught and logged as an
error, so `run_command` itself never raises.  The exit status is ignored
(a completed process with a nonzero `returncode` is not an exception). -/
def run_command (env : LocalEnv) (command outputFile : String) (eff : Eff) : Eff :=
  match env.subprocessRun command with
  | .error e => eff.log .error ("Failed to run command " ++ command ++ ": " ++ e)
  | .ok r =>
    (eff.write outputFile (r.stdout ++ stderrSection r.stderr)).log .info
      ("Collector saved: " ++ outputFile)

def collect_uname (env : LocalEnv) (outputPath : String) (eff : Eff) :
    Except String Unit × Eff :=
  match env.psystem with
  | .error e => (.error e, eff)
  | .ok os =>
    let cmd := if os = "Windows" then "systeminfo" else "uname -a"
    (.ok (), run_command env cmd (outputPath ++ "/uname.txt") eff)

def collect_processes (env : LocalEnv) (outputPath : String) (eff : Eff) :
    Except String Unit × Eff :=
  match env.psystem with
  | .error e => (.error e, eff)
  | .ok os =>
    let cmd := if os = "Windows" then "tasklist" else "ps aux"
    (.ok (), run_command env cmd (outputPath ++ "/processes.txt") eff)

def collect_crontab (env : LocalEnv) (outputPath : String) (eff : Eff) :
    Except String Unit × Eff :=
  match env.psystem with
  | .error e => (.error e, eff)
  | .ok os =>
    let cmd := if os = "Windows" then "schtasks /query /fo LIST /v" else "crontab -l"
    (.ok (), run_command env cmd (outputPath ++ "/crontab.txt") eff)

def collect_packages (env : LocalEnv) (outputPath : String) (eff : Eff) :
    Except String Unit × Eff :=
  match env.psystem with
  | .error e => (.error e, eff)
  | .ok os =>
    if os = "Windows" then
      (.ok (), run_command env "wmic product get name,version" (outputPath ++ "/packages.txt") eff)
    else
      match env.whichTool "dpkg" with
      | .error e => (.error e, eff)
      | .ok true => (.ok (), run_command env "dpkg -l" (outputPath ++ "/packages.txt") eff)
      | .ok false =>
        match env.whichTool "rpm" with
        | .error e => (.error e, eff)
        | .ok true => (.ok (), run_command env "rpm -qa" (outputPath ++ "/packages.txt") eff)
        | .ok false => (.ok (), eff.log .warning "No package manager found.")

/-- The body of `run_local_collector`'s `try` block: the `if/elif` chain
dispatching on the collector name.  A name matching no branch does
nothing and falls through to `return (collector, None)`. -/
def localBody (env : LocalEnv) (localPath collector : String) (eff : Eff) :
    Except String Unit × Eff :=
  if collector = "uname" then collect_uname env localPath eff
  else if collector = "processes" then collect_processes env localPath eff
  else if collector = "crontab" then collect_crontab env localPath eff
  else if collector = "packages" then collect_packages env localPath eff
  else (.ok (), eff)

/-- `run_local_collector(collector, local_path)`: run the dispatched body;
on success return `(collector, None)`, on any exception log the failure
and return `(collector, e)`.  Never raises. -/
def run_local_collector (env : LocalEnv) (collector localPath : String) (eff : Eff) :
    (String × Option String) × Eff :=
  match localBody env localPath collector eff with
  | (.ok _, eff2) => ((collector, none), eff2)
  | (.error e, eff2) =>
    ((collector, some e), eff2.log .error ("Local collector " ++ collector ++ " failed: " ++ e))

/-- The error (if any) collector `collector` produces under environment
`env`, as recorded in its outcome; a pure function of the two because the
dispatch outcome depends neither on the destination path nor on effects
already accumulated. -/
def localErr (env : LocalEnv) (collector : String) : Option String :=
  match (localBody env "" collector Eff.empty).fst with
  | .ok _ => none
  | .error e => some e

/-- The local-family engine of `main`: one `run_local_collector` task per
configured name, submitted to the `ThreadPoolExecutor(max_workers=4)`.
The tasks share only the append-only effect record, so the model threads
it through one task at a time: this is one linearisation of the pool's
interleavings, and the per-task outcomes do not depend on it. -/
def runLocalFamily (env : LocalEnv) (localPath : String) (collectors : List String)
    (eff : Eff) : List (String × Option String) × Eff :=
  match collectors with
  | [] => ([], eff)
  | c :: rest =>
    let r := run_local_collector env c localPath eff
    let rr := runLocalFamily env localPath rest r.2
    (r.1 :: rr.1, rr.2)

/-- Result of one boto3 API call: a normal response (its JSON-serialised
payload for the key the collector extracts), a `NoCredentialsError` /
`ClientError` (caught by the collector), or any other exception (not
caught by the collector). -/
inductive ApiResult where
  | ok (payload : String)
  | clientError (e : String)
  | raise (e : String)

/-- External AWS facilities: `boto3.Session(...).client(service)` keyed by
service, profile and region (an exception here is caught inside
`aws_client`), and the API call each collector makes, keyed by operation
name. -/
structure AwsEnv where
  mkClient : String → String → String → Except String Unit
  apiCall : String → ApiResult

/-- `aws_client(service, profile, region)`: build the client, or catch the
exception, log it and return `None` (modelled as `false`). -/
def aws_client (env : AwsEnv) (service profile region : String) (eff : Eff) : Bool × Eff :=
  match env.mkClient service profile region with
  | .ok _ => (true, eff)
  | .error e =>
    (false, eff.log .error ("Failed to create AWS client for " ++ service ++ ": " ++ e))

def collect_s3_buckets (env : AwsEnv) (outputPath profile region : String) (eff : Eff) :
    Except String Unit × Eff :=
  match aws_client env "s3" profile region eff with
  | (false, eff2) => (.ok (), eff2)
  | (true, eff2) =>
    match env.apiCall "list_buckets" with
    | .ok payload =>
      (.ok (), (eff2.write (outputPath ++ "/s3_buckets.json") payload).log .info
        "AWS S3 buckets collected.")
    | .clientError e => (.ok (), eff2.log .error ("Error collecting S3 buckets: " ++ e))
    | .raise e => (.error e, eff2)

def collect_security_groups (env : AwsEnv) (outputPath profile region : String) (eff : Eff) :
    Except String Unit × Eff :=
  match aws_client env "ec2" profile region eff with
  | (false, eff2) => (.ok (), eff2)
  | (true, eff2) =>
    match env.apiCall "describe_security_groups" with
    | .ok payload =>
      (.ok (), (eff2.write (outputPath ++ "/security_groups.json") payload).log .info
        "AWS security groups collected.")
    | .clientError e => (.ok (), eff2.log .error ("Error collecting security groups: " ++ e))
    | .raise e => (.error e, eff2)

def collect_iam_users (env : AwsEnv) (outputPath profile region : String) (eff : Eff) :
    Except String Unit × Eff :=
  match aws_client env "iam" profile region eff with
  | (false, eff2) => (.ok (), eff2)
  | (true, eff2) =>
    match env.apiCall "list_users" with
    | .ok payload =>
      (.ok (), (eff2.write (outputPath ++ "/iam_users.json") payload).log .info
        "AWS IAM users collected.")
    | .clientError e => (.ok (), eff2.log .error ("Error collecting IAM users: " ++ e))
    | .raise e => (.error e, eff2)

/-- The body of `run_aws_collector`'s `try` block. -/
def awsBody (env : AwsEnv) (awsPath profile region collector : String) (eff : Eff) :
    Except String Unit × Eff :=
  if collector = "s3" then collect_s3_buckets env awsPath profile region eff
  else if collector = "security_groups" then
    collect_security_groups env awsPath profile region eff
  else if collector = "iam_users" then collect_iam_users env awsPath profile region eff
  else (.ok (), eff)

/-- `run_aws_collector(collector, aws_path, profile, region)`. -/
def run_aws_collector (env : AwsEnv) (collector awsPath profile region : String) (eff : Eff) :
    (String × Option String) × Eff :=
  match awsBody env awsPath profile region collector eff with
  | (.ok _, eff2) => ((collector, none), eff2)
  | (.error e, eff2) =>
    ((collector, some e), eff2.log .error ("AWS collector " ++ collector ++ " failed: " ++ e))

/-- The error (if any) AWS collector `collector` produces under `env`
with the given profile and region; a pure function of these because the
dispatch outcome depends neither on the destination path nor on effects
already accumulated. -/
def awsErr (env : AwsEnv) (profile region collector : String) : Option String :=
  match (awsBody env "" profile region collector Eff.empty).fst with
  | .ok _ => none
  | .error e => some e

/-- The AWS-family engine of `main`: one `run_aws_collector` task per
configured name under `ThreadPoolExecutor(max_workers=3)`, modelled as a
linearisation like `runLocalFamily`. -/
def runAwsFamily (env : AwsEnv) (awsPath profile region : String) (collectors : List String)
    (eff : Eff) : List (String × Option String) × Eff :=
  match collectors with
  | [] => ([], eff)
  | c :: rest =>
    let r := run_aws_collector env c awsPath profile region eff
    let rr := runAwsFamily env awsPath profile region rest r.2
    (r.1 :: rr.1, rr.2)

/-! ## Ordering of directory creation and collector execution (main)

`main`'s sequence of workspace-shaping steps, as an event trace.  Thread
pools are scatter/gather blocks: every task of a family starts after the
statements above the pool's `with` block and finishes before the
statements below it, so the trace order between directory-creation events
and run events is exact (only the order among the run events of one
family is a chosen linearisation). -/

inductive Ev where
  | mkRoot (path : String)
  | saveMeta
  | mkDir (path : String)
  | runLoc (collector : String)
  | runAws (collector : String)
deriving DecidableEq

/-- The configuration `main` acts on after argument/config resolution.
`workspaceName` is the `{timestamp}_{hostname}` folder name chosen by
`create_output_dir`. -/
structure RunConfig where
  baseDir : String
  workspaceName : String
  localCollectors : List String
  awsCollectors : List String
  noAws : Bool

/-- The ordered workspace events of `main`: create the workspace root,
save `env_metadata.json`, create `local/`, run the local collectors,
then — unless `--no-aws` — create `aws/` and run the AWS collectors.
Subdirectory paths are relative to the workspace root. -/
def main_trace (cfg : RunConfig) : List Ev :=
  Ev.mkRoot (cfg.baseDir ++ "/" ++ cfg.workspaceName) ::
  Ev.saveMeta ::
  Ev.mkDir "local" ::
  (cfg.localCollectors.map Ev.runLoc ++
    (if cfg.noAws then [] else Ev.mkDir "aws" :: cfg.awsCollectors.map Ev.runAws))

def isMkEv : Ev → Bool
  | .mkRoot _ => true
  | .mkDir _ => true
  | _ => false

def isRunEv : Ev → Bool
  | .runLoc _ => true
  | .runAws _ => true
  | _ => false

def isRunLocEv : Ev → Bool
  | .runLoc _ => true
  | _ => false

def isRunAwsEv : Ev → Bool
  | .runAws _ => true
  | _ => false

/-- `allBefore p q t`: in trace `t`, every `p`-event occurs strictly
before every `q`-event (equivalently: no `p`-event follows a `q`-event). -/
def allBefore (p q : Ev → Bool) : List Ev → Bool
  | [] => true
  | e :: t => (if q e then t.all (fun x => !(p x)) else true) && allBefore p q t

/-- The claimed invariant: every directory-creation event precedes every
collector-run event. -/
def eagerCreation (t : List Ev) : Bool := allBefore isMkEv isRunEv t

def isRootEv : Ev → Bool
  | .mkRoot _ => true
  | _ => false

/-! ## Concrete instances for witnesses and counterexamples -/

/-- A run with one local and one AWS collector and `--no-aws` absent. -/
def cfg0 : RunConfig :=
  ⟨"evidence", "2025-10-12_10-00-00_hosta", ["uname"], ["s3"], false⟩

/-- A completed process that succeeded with some stdout. -/
def execOk : ExecResult := ⟨"out", "", 0⟩

/-- An environment where every external call returns normally. -/
def cenvOk : LocalEnv :=
  { psystem := .ok "Linux"
    whichTool := fun _ => .ok true
    subprocessRun := fun _ => .ok execOk }

/-- An environment where `shutil.which("dpkg")` raises — so the body of
the `packages` collector raises while every other collector completes. -/
def cenvFail : LocalEnv :=
  { psystem := .ok "Linux"
    whichTool := fun tool => if tool = "dpkg" then .error "disk failure" else .ok false
    subprocessRun := fun _ => .ok execOk }

/-- A host with no crontab: `crontab -l` exits 1 with empty stdout and an
error message on stderr. -/
def cenvNoCron : LocalEnv :=
  { psystem := .ok "Linux"
    whichTool := fun _ => .ok true
    subprocessRun := fun _ => .ok ⟨"", "no crontab for root", 1⟩ }

/-- An AWS environment where every client is created and every API call
returns an empty record list. -/
def aenvOk : AwsEnv :=
  { mkClient := fun _ _ _ => .ok ()
    apiCall := fun _ => .ok "[]" }

theorem toBlocks_join (n : Nat) (l : List α) : (toBlocks (n + 1) l).flatten = l := by
  match l with
  | [] => simp [toBlocks]
  | x :: xs =>
    have ih := toBlocks_join n (xs.drop n)
    rw [toBlocks]
    simp only [List.flatten_cons, Nat.add_sub_cancel, ih, List.take_succ_cons]
    rw [List.cons_append, List.take_append_drop]
termination_by l.length
decreasing_by
  simp only [List.length_drop, List.length_cons]
  omega

theorem foldl_append_join (bs : List (List Nat)) (acc : List Nat) :
    bs.foldl (fun buf block => buf ++ block) acc = acc ++ bs.flatten := by
  induction bs generalizing acc with
  | nil => simp
  | cons b bs ih => simp [ih, List.append_assoc]

theorem sha256_checksum_eq_sha256hex (bs : List Nat) :
    sha256_checksum bs = sha256hex bs := by
  have h4096 : (4096 : Nat) = 4095 + 1 := rfl
  rw [sha256_checksum, foldl_append_join, List.nil_append, h4096, toBlocks_join]

theorem foldl_count_filter (p : α → Bool) (l : List α) (a : Nat) :
    l.foldl (fun c x => if p x then c + 1 else c) a = a + (l.filter p).length := by
  induction l generalizing a with
  | nil => simp
  | cons x xs ih =>
    cases hp : p x
    · simp [List.filter_cons, hp, ih]
    · simp [List.filter_cons, hp, ih]
      omega

theorem foldl_add_shift (f : Nat → α → Nat) (g : α → Nat)
    (hf : ∀ c x, f c x = c + g x) (l : List α) (a : Nat) :
    l.foldl f a = a + (l.map g).sum := by
  induction l generalizing a with
  | nil => simp
  | cons x xs ih => simp [hf, ih, Nat.add_assoc]

theorem length_filter_flatten (p : α → Bool) (ll : List (List α)) :
    (ll.flatten.filter p).length = (ll.map (fun l => (l.filter p).length)).sum := by
  induction ll with
  | nil => simp
  | cons l ls ih =>
    simp only [List.flatten_cons, List.filter_append, List.length_append, ih, List.map_cons,
      List.sum_cons]

theorem count_open_eq_filter (sgs : List SecurityGroup) :
    count_open_security_groups (some sgs) =
      (((sgs.map fun g => (g.ipPermissions.map fun pm => pm.ipRanges).flatten).flatten).filter
        (fun r => r.cidrIp == some "0.0.0.0/0")).length := by
  have hH : ∀ (rs : List IpRange) (c : Nat),
      rs.foldl (fun count ipRange =>
        if ipRange.cidrIp == some "0.0.0.0/0" then count + 1 else count) c =
        c + (rs.filter (fun r => r.cidrIp == some "0.0.0.0/0")).length :=
    fun rs c => foldl_count_filter _ rs c
  have hG : ∀ (pms : List IpPermission) (c : Nat),
      pms.foldl (fun count perm =>
        perm.ipRanges.foldl (fun count ipRange =>
          if ipRange.cidrIp == some "0.0.0.0/0" then count + 1 else count) count) c =
        c + (pms.map fun pm =>
          (pm.ipRanges.filter (fun r => r.cidrIp == some "0.0.0.0/0")).length).sum :=
    fun pms c => foldl_add_shift _ _ (fun c pm => hH pm.ipRanges c) pms c
  have hF := foldl_add_shift _ _ (fun c sg => hG sg.ipPermissions c) sgs 0
  simp only [count_open_security_groups, hF, Nat.zero_add]
  rw [length_filter_flatten, List.map_map]
  refine congrArg List.sum (List.map_congr_left fun sg _ => ?_)
  simp only [Function.comp_apply, length_filter_flatten, List.map_map]
  rfl

theorem count_public_eq_filter (bs : List Bucket) :
    count_public_s3_buckets (some bs) =
      (bs.filter fun b => pyInStr "public" (pyLowerStr (b.name.getD ""))).length := by
  simpa using foldl_count_filter (fun b : Bucket => pyInStr "public" (pyLowerStr (b.name.getD ""))) bs 0

theorem leadsWith_iff (n : List Char) :
    ∀ h : List Char, leadsWith n h = true ↔ ∃ r, h = n ++ r := by
  induction n with
  | nil => intro h; simp [leadsWith]
  | cons a as ih =>
    intro h
    cases h with
    | nil =>
      simp only [leadsWith, List.cons_append]
      constructor
      · intro hfalse; cases hfalse
      · rintro ⟨r, hr⟩; cases hr
    | cons b bs =>
      simp only [leadsWith, Bool.and_eq_true, beq_iff_eq, ih bs, List.cons_append]
      constructor
      · rintro ⟨rfl, r, rfl⟩
        exact ⟨r, rfl⟩
      · rintro ⟨r, hr⟩
        injection hr with h1 h2
        exact ⟨h1.symm, r, h2⟩

theorem hasSub_iff (n : List Char) :
    ∀ h : List Char, hasSub n h = true ↔ ∃ l r, h = l ++ n ++ r := by
  intro h
  induction h with
  | nil =>
    simp only [hasSub, List.isEmpty_iff]
    constructor
    · rintro rfl; exact ⟨[], [], rfl⟩
    · rintro ⟨l, r, hr⟩
      have := hr.symm
      simp only [List.append_eq_nil] at this
      exact this.1.2
  | cons c rest ih =>
    simp only [hasSub, Bool.or_eq_true, ih, leadsWith_iff]
    constructor
    · rintro (⟨r, hr⟩ | ⟨l, r, hr⟩)
      · exact ⟨[], r, by simp [hr]⟩
      · exact ⟨c :: l, r, by simp [hr]⟩
    · rintro ⟨l, r, hr⟩
      cases l with
      | nil =>
        left
        exact ⟨r, by simpa using hr⟩
      | cons x xs =>
        right
        simp only [List.cons_append] at hr
        injection hr with h1 h2
        exact ⟨xs, r, h2⟩

/-- C3: sealing a workspace stores, in the manifest record, exactly the
SHA-256 hex digest of the produced archive's bytes, bound to the
archive's filename — so recomputing the digest over the archive bytes
reproduces the stored digest (the chunked 4096-byte reading of
`sha256_checksum` hashes exactly the whole file). -/
theorem c3_manifest_roundtrip :
    ∀ (archiveBytes : List Nat) (archiveName : String),
      seal_manifest archiveName archiveBytes =
        manifestLine archiveName (sha256hex archiveBytes) ∧
      sha256_checksum archiveBytes = sha256hex archiveBytes := by
  intro bs name
  refine ⟨?_, sha256_checksum_eq_sha256hex bs⟩
  rw [seal_manifest, sha256_checksum_eq_sha256hex]

/-- C4: the open-ingress count equals the number of individual inbound
rule entries (elements of `IpRanges`, across all permissions of all
groups) whose `CidrIp` is `0.0.0.0/0`; in particular two groups, one
with two matching entries and one with none, count as 2. -/
theorem c4_open_ingress_count :
    (∀ sgs : List SecurityGroup,
        count_open_security_groups (some sgs) =
          (((sgs.map fun g => (g.ipPermissions.map fun pm => pm.ipRanges).flatten).flatten).filter
            (fun r => r.cidrIp == some "0.0.0.0/0")).length) ∧
      count_open_security_groups (some
        [⟨[⟨[⟨some "0.0.0.0/0"⟩, ⟨some "10.0.0.0/8"⟩]⟩, ⟨[⟨some "0.0.0.0/0"⟩]⟩]⟩,
         ⟨[⟨[⟨some "192.168.0.0/16"⟩]⟩]⟩]) = 2 :=
  ⟨count_open_eq_filter, by decide⟩

/-- C5: the public-resource count equals the number of bucket entries
whose name contains the substring "public" case-insensitively (Python
`'public' in name.lower()`, characterised as an infix decomposition);
for the three listed bucket names the count is 2. -/
theorem c5_public_bucket_count :
    (∀ bs : List Bucket,
        count_public_s3_buckets (some bs) =
          (bs.filter fun b => pyInStr "public" (pyLowerStr (b.name.getD ""))).length) ∧
      (∀ needle hay : String,
        pyInStr needle hay = true ↔ ∃ l r : List Char, hay.toList = l ++ needle.toList ++ r) ∧
      count_public_s3_buckets (some
        [⟨some "my-public-data"⟩, ⟨some "private-logs"⟩, ⟨some "PUBLIC-archive"⟩]) = 2 :=
  ⟨count_public_eq_filter, fun needle hay => hasSub_iff needle.toList hay.toList, by decide⟩

/-- Closed instance of C5's substring characterisation at a concrete
bucket name. -/
theorem c5_public_bucket_count_witness :
    pyInStr "public" "my-public-data" = true :=
  (c5_public_bucket_count.2.1 "public" "my-public-data").mpr
    ⟨"my-".toList, "-data".toList, by decide⟩

theorem mem_dropWhile_of_neg (p : α → Bool) (l : List α) (c : α) (hc : c ∈ l)
    (hp : p c = false) : c ∈ l.dropWhile p := by
  induction l with
  | nil => cases hc
  | cons x xs ih =>
    by_cases hx : p x
    · rw [List.dropWhile_cons, if_pos hx]
      rcases List.mem_cons.mp hc with rfl | h
      · rw [hp] at hx; cases hx
      · exact ih h
    · rw [List.dropWhile_cons, if_neg hx]
      exact hc

theorem pyStripList_ne_nil (l : List Char) (c : Char) (hc : c ∈ l)
    (hcs : pyIsSpace c = false) : pyStripList l ≠ [] := by
  intro h
  rw [pyStripList, List.reverse_eq_nil_iff] at h
  have h1 : c ∈ l.dropWhile pyIsSpace := mem_dropWhile_of_neg _ _ _ hc hcs
  have h2 : c ∈ (l.dropWhile pyIsSpace).reverse := List.mem_reverse.mpr h1
  have h3 : c ∈ ((l.dropWhile pyIsSpace).reverse).dropWhile pyIsSpace :=
    mem_dropWhile_of_neg _ _ _ h2 hcs
  rw [h] at h3
  cases h3

/-- C6: the crontab-present flag is true exactly when the crontab
artifact exists and its content is non-empty after stripping whitespace;
concretely it is false for a missing, empty or whitespace-only artifact
and true once any non-whitespace character is present. -/
theorem c6_crontab_present :
    (∀ d : LocalArtifacts,
        ((summarize_local d).crontab_present = true ↔
          ∃ content, d.crontab = some content ∧ pyStrip content ≠ "")) ∧
      (summarize_local ⟨none, none, none⟩).crontab_present = false ∧
      (summarize_local ⟨none, some "", none⟩).crontab_present = false ∧
      (summarize_local ⟨none, some " \t\n ", none⟩).crontab_present = false ∧
      (summarize_local ⟨none, some "0 3 * * * /usr/local/bin/backup.sh", none⟩).crontab_present
        = true := by
  refine ⟨?_, by decide, by decide, by decide, by decide⟩
  intro d
  cases hc : d.crontab with
  | none => simp [summarize_local, hc]
  | some s =>
    simp only [summarize_local, hc, Option.some.injEq, Bool.not_eq_true']
    constructor
    · intro hfalse
      refine ⟨s, rfl, fun hempty => ?_⟩
      have hnil : pyStripList s.toList = [] := congrArg String.data hempty
      rw [hnil] at hfalse
      simp at hfalse
    · rintro ⟨content, rfl, hne⟩
      have hnil : pyStripList s.toList ≠ [] := by
        intro h2
        exact hne (by rw [pyStrip, h2])
      simpa [List.isEmpty_iff] using hnil

/-- Closed instance of C6 at a one-entry crontab artifact. -/
theorem c6_crontab_present_witness :
    (summarize_local ⟨none, some "@reboot /usr/bin/true", none⟩).crontab_present = true :=
  (c6_crontab_present.1 ⟨none, some "@reboot /usr/bin/true", none⟩).mpr
    ⟨"@reboot /usr/bin/true", rfl, by decide⟩

/-- C10: whenever the subprocess returns a completed process — whatever
its exit status — `run_command` writes the output file with the process's
stdout followed, when stderr is non-empty, by the `[STDERR]` section and
the stderr text; such a file strips to non-whitespace content, so
`summarize_local` reports `crontab_present = True` for it even though the
command itself failed. -/
theorem c10_run_command_stderr :
    ∀ (env : LocalEnv) (command outputFile : String) (eff : Eff) (r : ExecResult),
      env.subprocessRun command = .ok r →
      (run_command env command outputFile eff =
          (eff.write outputFile (r.stdout ++ stderrSection r.stderr)).log .info
            ("Collector saved: " ++ outputFile) ∧
        (r.stderr ≠ "" →
          pyStripList (r.stdout ++ stderrSection r.stderr).toList ≠ [] ∧
          (summarize_local
              ⟨none, some (r.stdout ++ stderrSection r.stderr), none⟩).crontab_present
            = true)) := by
  intro env command outputFile eff r hrun
  refine ⟨by rw [run_command, hrun], ?_⟩
  intro hstderr
  have hsec : stderrSection r.stderr = "\n[STDERR]\n" ++ r.stderr := by
    rw [stderrSection, if_neg hstderr]
  have hmem : '[' ∈ (r.stdout ++ stderrSection r.stderr).toList := by
    rw [hsec]
    have hsplit : (r.stdout ++ ("\n[STDERR]\n" ++ r.stderr)).toList =
        r.stdout.toList ++ ("\n[STDERR]\n".toList ++ r.stderr.toList) := by simp
    rw [hsplit]
    refine List.mem_append.mpr (Or.inr (List.mem_append.mpr (Or.inl ?_)))
    decide
  have hne := pyStripList_ne_nil _ '[' hmem (by decide)
  refine ⟨hne, ?_⟩
  simp only [summarize_local]
  simpa [List.isEmpty_iff] using hne

/-- Closed instance of C10: on a host with no crontab, `crontab -l` exits
nonzero with empty stdout and an error on stderr, yet the artifact is
written with a `[STDERR]` section and the derived crontab-present flag is
true. -/
theorem c10_run_command_stderr_witness :
    run_command cenvNoCron "crontab -l" "local/crontab.txt" Eff.empty =
        (Eff.empty.write "local/crontab.txt"
            ("" ++ stderrSection "no crontab for root")).log .info
          ("Collector saved: " ++ "local/crontab.txt") ∧
      (pyStripList ("" ++ stderrSection "no crontab for root").toList ≠ [] ∧
        (summarize_local
            ⟨none, some ("" ++ stderrSection "no crontab for root"), none⟩).crontab_present
          = true) :=
  ⟨(c10_run_command_stderr cenvNoCron "crontab -l" "local/crontab.txt" Eff.empty
      ⟨"", "no crontab for root", 1⟩ rfl).1,
    (c10_run_command_stderr cenvNoCron "crontab -l" "local/crontab.txt" Eff.empty
      ⟨"", "no crontab for root", 1⟩ rfl).2 (by decide)⟩

theorem collect_uname_fst (env : LocalEnv) (outputPath : String) (eff : Eff) :
    (collect_uname env outputPath eff).fst = (collect_uname env "" Eff.empty).fst := by
  cases henv : env.psystem <;> simp [collect_uname, henv]

theorem collect_processes_fst (env : LocalEnv) (outputPath : String) (eff : Eff) :
    (collect_processes env outputPath eff).fst = (collect_processes env "" Eff.empty).fst := by
  cases henv : env.psystem <;> simp [collect_processes, henv]

theorem collect_crontab_fst (env : LocalEnv) (outputPath : String) (eff : Eff) :
    (collect_crontab env outputPath eff).fst = (collect_crontab env "" Eff.empty).fst := by
  cases henv : env.psystem <;> simp [collect_crontab, henv]

theorem collect_packages_fst (env : LocalEnv) (outputPath : String) (eff : Eff) :
    (collect_packages env outputPath eff).fst = (collect_packages env "" Eff.empty).fst := by
  cases henv : env.psystem with
  | error e => simp [collect_packages, henv]
  | ok os =>
    by_cases hos : os = "Windows"
    · simp [collect_packages, henv, hos]
    · cases hdpkg : env.whichTool "dpkg" with
      | error e => simp [collect_packages, henv, hos, hdpkg]
      | ok b =>
        cases b with
        | true => simp [collect_packages, henv, hos, hdpkg]
        | false =>
          cases hrpm : env.whichTool "rpm" with
          | error e => simp [collect_packages, henv, hos, hdpkg, hrpm]
          | ok b2 => cases b2 <;> simp [collect_packages, henv, hos, hdpkg, hrpm]

theorem localBody_fst (env : LocalEnv) (localPath collector : String) (eff : Eff) :
    (localBody env localPath collector eff).fst = (localBody env "" collector Eff.empty).fst := by
  rw [localBody, localBody]
  split_ifs
  · exact collect_uname_fst env localPath eff
  · exact collect_processes_fst env localPath eff
  · exact collect_crontab_fst env localPath eff
  · exact collect_packages_fst env localPath eff
  · rfl

theorem run_local_collector_fst (env : LocalEnv) (collector localPath : String) (eff : Eff) :
    (run_local_collector env collector localPath eff).fst =
      (collector, localErr env collector) := by
  have h := localBody_fst env localPath collector eff
  rw [run_local_collector, localErr]
  rcases hb : localBody env localPath collector eff with ⟨exc, eff2⟩
  rw [hb] at h
  rw [← h]
  cases exc <;> rfl

theorem runLocalFamily_fst (env : LocalEnv) (localPath : String) (collectors : List String)
    (eff : Eff) :
    (runLocalFamily env localPath collectors eff).fst =
      collectors.map (fun c => (c, localErr env c)) := by
  induction collectors generalizing eff with
  | nil => rfl
  | cons c rest ih => simp [runLocalFamily, run_local_collector_fst, ih]

theorem collect_s3_buckets_fst (env : AwsEnv) (outputPath profile region : String) (eff : Eff) :
    (collect_s3_buckets env outputPath profile region eff).fst =
      (collect_s3_buckets env "" profile region Eff.empty).fst := by
  cases hm : env.mkClient "s3" profile region <;>
    cases ha : env.apiCall "list_buckets" <;>
      simp [collect_s3_buckets, aws_client, hm, ha]

theorem collect_security_groups_fst (env : AwsEnv) (outputPath profile region : String)
    (eff : Eff) :
    (collect_security_groups env outputPath profile region eff).fst =
      (collect_security_groups env "" profile region Eff.empty).fst := by
  cases hm : env.mkClient "ec2" profile region <;>
    cases ha : env.apiCall "describe_security_groups" <;>
      simp [collect_security_groups, aws_client, hm, ha]

theorem collect_iam_users_fst (env : AwsEnv) (outputPath profile region : String) (eff : Eff) :
    (collect_iam_users env outputPath profile region eff).fst =
      (collect_iam_users env "" profile region Eff.empty).fst := by
  cases hm : env.mkClient "iam" profile region <;>
    cases ha : env.apiCall "list_users" <;>
      simp [collect_iam_users, aws_client, hm, ha]

theorem awsBody_fst (env : AwsEnv) (awsPath profile region collector : String) (eff : Eff) :
    (awsBody env awsPath profile region collector eff).fst =
      (awsBody env "" profile region collector Eff.empty).fst := by
  rw [awsBody, awsBody]
  split_ifs
  · exact collect_s3_buckets_fst env awsPath profile region eff
  · exact collect_security_groups_fst env awsPath profile region eff
  · exact collect_iam_users_fst env awsPath profile region eff
  · rfl

theorem run_aws_collector_fst (env : AwsEnv) (collector awsPath profile region : String)
    (eff : Eff) :
    (run_aws_collector env collector awsPath profile region eff).fst =
      (collector, awsErr env profile region collector) := by
  have h := awsBody_fst env awsPath profile region collector eff
  rw [run_aws_collector, awsErr]
  rcases hb : awsBody env awsPath profile region collector eff with ⟨exc, eff2⟩
  rw [hb] at h
  rw [← h]
  cases exc <;> rfl

theorem runAwsFamily_fst (env : AwsEnv) (awsPath profile region : String)
    (collectors : List String) (eff : Eff) :
    (runAwsFamily env awsPath profile region collectors eff).fst =
      collectors.map (fun c => (c, awsErr env profile region c)) := by
  induction collectors generalizing eff with
  | nil => rfl
  | cons c rest ih => simp [runAwsFamily, run_aws_collector_fst, ih]

/-- C1: each family's engine produces exactly one `(name, error-or-None)`
outcome per input collector name — same cardinality as the input list —
for every environment, so regardless of how many collectors fail. -/
theorem c1_one_outcome_per_name :
    ∀ (lenv : LocalEnv) (aenv : AwsEnv) (localPath awsPath profile region : String)
      (localNames awsNames : List String) (eff eff2 : Eff),
      ((runLocalFamily lenv localPath localNames eff).fst.map Prod.fst = localNames ∧
        (runLocalFamily lenv localPath localNames eff).fst.length = localNames.length) ∧
      ((runAwsFamily aenv awsPath profile region awsNames eff2).fst.map Prod.fst = awsNames ∧
        (runAwsFamily aenv awsPath profile region awsNames eff2).fst.length =
          awsNames.length) := by
  intro lenv aenv localPath awsPath profile region localNames awsNames eff eff2
  have hpair : ∀ (g : String → Option String) (l : List String),
      (l.map (fun c => (c, g c))).map Prod.fst = l := fun g l => by
    rw [List.map_map]
    exact (List.map_congr_left fun a _ => rfl).trans (List.map_id l)
  refine ⟨⟨?_, ?_⟩, ⟨?_, ?_⟩⟩
  · rw [runLocalFamily_fst]; exact hpair _ _
  · rw [runLocalFamily_fst, List.length_map]
  · rw [runAwsFamily_fst]; exact hpair _ _
  · rw [runAwsFamily_fst, List.length_map]

/-- C2: a collector whose body raises has the exception caught at the
`run_local_collector` / `run_aws_collector` boundary and recorded as a
`(name, error)` outcome, and every sibling of the same family still runs
and has its own outcome recorded; nothing propagates past the engine
(both engines are total functions returning an outcome list). -/
theorem c2_failure_isolation :
    (∀ (env : LocalEnv) (localPath : String) (names : List String) (eff : Eff) (n e : String),
        n ∈ names → localErr env n = some e →
        ((n, some e) ∈ (runLocalFamily env localPath names eff).fst ∧
          ∀ m ∈ names, (m, localErr env m) ∈ (runLocalFamily env localPath names eff).fst)) ∧
      (∀ (env : AwsEnv) (awsPath profile region : String) (names : List String) (eff : Eff)
          (n e : String),
        n ∈ names → awsErr env profile region n = some e →
        ((n, some e) ∈ (runAwsFamily env awsPath profile region names eff).fst ∧
          ∀ m ∈ names, (m, awsErr env profile region m) ∈
            (runAwsFamily env awsPath profile region names eff).fst)) := by
  constructor
  · intro env localPath names eff n e hn he
    rw [runLocalFamily_fst]
    refine ⟨?_, fun m hm => List.mem_map_of_mem _ hm⟩
    have hmem : (n, localErr env n) ∈ names.map (fun c => (c, localErr env c)) :=
      List.mem_map_of_mem _ hn
    rwa [he] at hmem
  · intro env awsPath profile region names eff n e hn he
    rw [runAwsFamily_fst]
    refine ⟨?_, fun m hm => List.mem_map_of_mem _ hm⟩
    have hmem : (n, awsErr env profile region n) ∈
        names.map (fun c => (c, awsErr env profile region c)) :=
      List.mem_map_of_mem _ hn
    rwa [he] at hmem

/-- Closed instance of C2: under `cenvFail` the `packages` collector's
body raises "disk failure", yet the family run records that failure as an
outcome and still records an outcome for every sibling. -/
theorem c2_failure_isolation_witness :
    ("packages", some "disk failure") ∈
        (runLocalFamily cenvFail "ws/local" ["uname", "packages", "crontab"] Eff.empty).fst ∧
      ∀ m ∈ ["uname", "packages", "crontab"],
        (m, localErr cenvFail m) ∈
          (runLocalFamily cenvFail "ws/local" ["uname", "packages", "crontab"] Eff.empty).fst :=
  c2_failure_isolation.1 cenvFail "ws/local" ["uname", "packages", "crontab"] Eff.empty
    "packages" "disk failure" (by decide) (by rfl)

/-- C7 counterexample: the claim asserts that an unknown collector name
in the local list is skipped *with a logged warning*.  Running the local
family on `["uname", "does_not_exist"]` under a fully healthy
environment emits no warning-level log line at all (the `if/elif` chain
of `run_local_collector` falls through silently), while the unknown name
still receives the success-shaped outcome `(name, None)`. -/
theorem c7_counterexample :
    ((runLocalFamily cenvOk "local" ["uname", "does_not_exist"] Eff.empty).snd.logs.filter
        (fun entry => entry.fst == LogLevel.warning)) = [] ∧
      ("does_not_exist", (none : Option String)) ∈
        (runLocalFamily cenvOk "local" ["uname", "does_not_exist"] Eff.empty).fst := by
  constructor
  · rfl
  · decide

/-- C7 as amended: an unknown collector name never raises and never stops
the rest of the run — the other names all receive outcomes — but it is
skipped silently: it produces the outcome `(name, None)` and leaves the
effect record (files and log, so in particular warnings) untouched;
no warning is logged for it. -/
theorem c7_unknown_name_skipped :
    ∀ (env : LocalEnv) (localPath : String) (names : List String) (eff : Eff) (n : String),
      n ∈ names → n ≠ "uname" → n ≠ "processes" → n ≠ "crontab" → n ≠ "packages" →
      (run_local_collector env n localPath eff = ((n, none), eff) ∧
        (n, (none : Option String)) ∈ (runLocalFamily env localPath names eff).fst ∧
        (runLocalFamily env localPath names eff).fst.map Prod.fst = names) := by
  intro env localPath names eff n hn h1 h2 h3 h4
  have hbody : ∀ (p : String) (e : Eff), localBody env p n e = (.ok (), e) := by
    intro p e
    rw [localBody]
    simp [h1, h2, h3, h4]
  have herr : localErr env n = none := by
    rw [localErr, hbody]
  refine ⟨by rw [run_local_collector, hbody], ?_, ?_⟩
  · rw [runLocalFamily_fst]
    have hmem : (n, localErr env n) ∈ names.map (fun c => (c, localErr env c)) :=
      List.mem_map_of_mem _ hn
    rwa [herr] at hmem
  · rw [runLocalFamily_fst, List.map_map]
    exact (List.map_congr_left fun a _ => rfl).trans (List.map_id names)

/-- Closed instance of C7's amendment at the unknown name
`"does_not_exist"` in a two-element local list. -/
theorem c7_unknown_name_skipped_witness :
    run_local_collector cenvOk "does_not_exist" "local" Eff.empty =
        (("does_not_exist", none), Eff.empty) ∧
      ("does_not_exist", (none : Option String)) ∈
        (runLocalFamily cenvOk "local" ["uname", "does_not_exist"] Eff.empty).fst ∧
      (runLocalFamily cenvOk "local" ["uname", "does_not_exist"] Eff.empty).fst.map Prod.fst =
        ["uname", "does_not_exist"] :=
  c7_unknown_name_skipped cenvOk "local" ["uname", "does_not_exist"] Eff.empty "does_not_exist"
    (by decide) (by decide) (by decide) (by decide) (by decide)

theorem allBefore_of_no_p (p q : Ev → Bool) (t : List Ev) (h : ∀ e ∈ t, p e = false) :
    allBefore p q t = true := by
  induction t with
  | nil => rfl
  | cons e rest ih =>
    have hrest : ∀ x ∈ rest, p x = false := fun x hx => h x (List.mem_cons_of_mem _ hx)
    cases hq : q e
    · simp [allBefore, hq, ih hrest]
    · simp [allBefore, hq, ih hrest, List.all_eq_true]
      exact hrest

theorem allBefore_of_no_q (p q : Ev → Bool) (t : List Ev) (h : ∀ e ∈ t, q e = false) :
    allBefore p q t = true := by
  induction t with
  | nil => rfl
  | cons e rest ih =>
    have hrest : ∀ x ∈ rest, q x = false := fun x hx => h x (List.mem_cons_of_mem _ hx)
    simp [allBefore, h e (List.mem_cons_self e rest), ih hrest]

theorem allBefore_append_no_q (p q : Ev → Bool) (t1 t2 : List Ev)
    (h1 : ∀ e ∈ t1, q e = false) (h2 : allBefore p q t2 = true) :
    allBefore p q (t1 ++ t2) = true := by
  induction t1 with
  | nil => simpa
  | cons e rest ih =>
    have hq : q e = false := h1 e (List.mem_cons_self e rest)
    simp [allBefore, hq, ih fun x hx => h1 x (List.mem_cons_of_mem _ hx)]

theorem allBefore_cons (p q : Ev → Bool) (e : Ev) (t : List Ev) :
    allBefore p q (e :: t) =
      ((if q e then t.all (fun x => !(p x)) else true) && allBefore p q t) := rfl

/-- C8 counterexample: with one local and one AWS collector configured,
`main`'s event order runs the local collector (index 3) before it creates
the `aws/` subdirectory (index 4), so it is false that both family
subdirectories exist before any collector of either family starts. -/
theorem c8_counterexample :
    eagerCreation (main_trace cfg0) = false ∧
      (main_trace cfg0)[3]? = some (Ev.runLoc "uname") ∧
      (main_trace cfg0)[4]? = some (Ev.mkDir "aws") := by
  refine ⟨by decide, by decide, by decide⟩

/-- C8 as amended: directory creation is eager per family, not globally —
the workspace root and the `local/` subdirectory are created before any
collector executes, and the `aws/` subdirectory is created after every
local collector has finished and before any AWS collector executes. -/
theorem c8_family_eager_creation :
    ∀ cfg : RunConfig,
      allBefore isRootEv isRunEv (main_trace cfg) = true ∧
      allBefore (fun e => e == Ev.mkDir "local") isRunEv (main_trace cfg) = true ∧
      allBefore isRunLocEv (fun e => e == Ev.mkDir "aws") (main_trace cfg) = true ∧
      allBefore (fun e => e == Ev.mkDir "aws") isRunAwsEv (main_trace cfg) = true := by
  intro cfg
  have memTail : ∀ e ∈ (cfg.localCollectors.map Ev.runLoc ++
      (if cfg.noAws then [] else Ev.mkDir "aws" :: cfg.awsCollectors.map Ev.runAws)),
      (∃ c, e = Ev.runLoc c) ∨ e = Ev.mkDir "aws" ∨ (∃ c, e = Ev.runAws c) := by
    intro e he
    rcases List.mem_append.mp he with h | h
    · rcases List.mem_map.mp h with ⟨c, _, rfl⟩
      exact Or.inl ⟨c, rfl⟩
    · cases hno : cfg.noAws
      · rw [hno] at h
        simp only [Bool.false_eq_true, if_false] at h
        rcases List.mem_cons.mp h with rfl | h2
        · exact Or.inr (Or.inl rfl)
        · rcases List.mem_map.mp h2 with ⟨c, _, rfl⟩
          exact Or.inr (Or.inr ⟨c, rfl⟩)
      · rw [hno] at h
        simp only [if_true] at h
        cases h
  refine ⟨?_, ?_, ?_, ?_⟩
  · show allBefore isRootEv isRunEv
      ([Ev.mkRoot (cfg.baseDir ++ "/" ++ cfg.workspaceName), Ev.saveMeta, Ev.mkDir "local"] ++
        (cfg.localCollectors.map Ev.runLoc ++
          (if cfg.noAws then [] else Ev.mkDir "aws" :: cfg.awsCollectors.map Ev.runAws))) = true
    apply allBefore_append_no_q
    · intro e he
      simp only [List.mem_cons, List.not_mem_nil, or_false] at he
      rcases he with rfl | rfl | rfl <;> rfl
    · apply allBefore_of_no_p
      intro e he
      rcases memTail e he with ⟨c, rfl⟩ | rfl | ⟨c, rfl⟩ <;> rfl
  · show allBefore (fun e => e == Ev.mkDir "local") isRunEv
      ([Ev.mkRoot (cfg.baseDir ++ "/" ++ cfg.workspaceName), Ev.saveMeta, Ev.mkDir "local"] ++
        (cfg.localCollectors.map Ev.runLoc ++
          (if cfg.noAws then [] else Ev.mkDir "aws" :: cfg.awsCollectors.map Ev.runAws))) = true
    apply allBefore_append_no_q
    · intro e he
      simp only [List.mem_cons, List.not_mem_nil, or_false] at he
      rcases he with rfl | rfl | rfl <;> rfl
    · apply allBefore_of_no_p
      intro e he
      rcases memTail e he with ⟨c, rfl⟩ | rfl | ⟨c, rfl⟩
      · rfl
      · decide
      · rfl
  · show allBefore isRunLocEv (fun e => e == Ev.mkDir "aws")
      ([Ev.mkRoot (cfg.baseDir ++ "/" ++ cfg.workspaceName), Ev.saveMeta, Ev.mkDir "local"] ++
        (cfg.localCollectors.map Ev.runLoc ++
          (if cfg.noAws then [] else Ev.mkDir "aws" :: cfg.awsCollectors.map Ev.runAws))) = true
    rw [← List.append_assoc]
    apply allBefore_append_no_q
    · intro e he
      rcases List.mem_append.mp he with h | h
      · simp only [List.mem_cons, List.not_mem_nil, or_false] at h
        rcases h with rfl | rfl | rfl
        · rfl
        · rfl
        · decide
      · rcases List.mem_map.mp h with ⟨c, _, rfl⟩
        rfl
    · cases hno : cfg.noAws
      · simp only [Bool.false_eq_true, if_false]
        rw [allBefore_cons, Bool.and_eq_true]
        refine ⟨?_, ?_⟩
        · rw [if_pos (show (Ev.mkDir "aws" == Ev.mkDir "aws") = true by decide)]
          rw [List.all_eq_true]
          intro x hx
          rcases List.mem_map.mp hx with ⟨c, _, rfl⟩
          rfl
        · apply allBefore_of_no_q
          intro x hx
          rcases List.mem_map.mp hx with ⟨c, _, rfl⟩
          rfl
      · simp only [if_true]
        rfl
  · show allBefore (fun e => e == Ev.mkDir "aws") isRunAwsEv
      ([Ev.mkRoot (cfg.baseDir ++ "/" ++ cfg.workspaceName), Ev.saveMeta, Ev.mkDir "local"] ++
        (cfg.localCollectors.map Ev.runLoc ++
          (if cfg.noAws then [] else Ev.mkDir "aws" :: cfg.awsCollectors.map Ev.runAws))) = true
    rw [← List.append_assoc]
    apply allBefore_append_no_q
    · intro e he
      rcases List.mem_append.mp he with h | h
      · simp only [List.mem_cons, List.not_mem_nil, or_false] at h
        rcases h with rfl | rfl | rfl <;> rfl
      · rcases List.mem_map.mp h with ⟨c, _, rfl⟩
        rfl
    · cases hno : cfg.noAws
      · simp only [Bool.false_eq_true, if_false]
        rw [allBefore_cons, Bool.and_eq_true]
        refine ⟨?_, ?_⟩
        · rw [if_neg (show ¬isRunAwsEv (Ev.mkDir "aws") = true by decide)]
        · apply allBefore_of_no_p
          intro x hx
          rcases List.mem_map.mp hx with ⟨c, _, rfl⟩
          rfl
      · simp only [if_true]
        rfl

/-- C9 counterexample: sealing the same-named workspace with the same
contents at two different times yields two different archive filenames,
because `create_archive` names the archive from `datetime.now()` and the
hostname, not from the workspace name. -/
theorem c9_counterexample :
    (create_archive [⟨"env_metadata.json", "meta"⟩] "ws" "2025-10-12_10-00-00" "hosta").fst ≠
      (create_archive [⟨"env_metadata.json", "meta"⟩] "ws" "2025-10-12_10-00-01" "hosta").fst := by
  decide

/-- C9 as amended: both seals compress the entire workspace subtree into
one archive preserving each file's relative path (`create_archive` under
the `output_path.name/` root, `zip_evidence` relative to the root); the
zip archive's filename is determined by the workspace path alone, while
the tar.gz filename is determined by the sealing timestamp and hostname
and is independent of the workspace's name and contents. -/
theorem c9_archive_naming :
    ∀ (files files' : List WsFile) (outputPath outputName outputName' timestamp hostname : String),
      (zip_evidence outputPath files).fst = outputPath ++ ".zip" ∧
      (zip_evidence outputPath files).fst = (zip_evidence outputPath files').fst ∧
      (zip_evidence outputPath files).snd = files ∧
      (create_archive files outputName timestamp hostname).fst =
        "audit_evidence_" ++ timestamp ++ "_" ++ hostname ++ ".tar.gz" ∧
      (create_archive files outputName timestamp hostname).fst =
        (create_archive files' outputName' timestamp hostname).fst ∧
      (create_archive files outputName timestamp hostname).snd.map WsFile.path =
        files.map (fun f => outputName ++ "/" ++ f.path) ∧
      (create_archive files outputName timestamp hostname).snd.map WsFile.content =
        files.map WsFile.content := by
  intro files files' outputPath outputName outputName' timestamp hostname
  refine ⟨rfl, rfl, rfl, rfl, rfl, ?_, ?_⟩ <;>
    simp [create_archive, List.map_map, Function.comp]

/-- Closed instance of C1 at a two-name local list and a one-name AWS
list. -/
theorem c1_one_outcome_per_name_witness :
    ((runLocalFamily cenvOk "local" ["uname", "crontab"] Eff.empty).fst.map Prod.fst =
        ["uname", "crontab"] ∧
      (runLocalFamily cenvOk "local" ["uname", "crontab"] Eff.empty).fst.length = 2) ∧
      ((runAwsFamily aenvOk "aws" "default" "us-east-1" ["s3"] Eff.empty).fst.map Prod.fst =
          ["s3"] ∧
        (runAwsFamily aenvOk "aws" "default" "us-east-1" ["s3"] Eff.empty).fst.length = 1) :=
  c1_one_outcome_per_name cenvOk aenvOk "local" "aws" "default" "us-east-1"
    ["uname", "crontab"] ["s3"] Eff.empty Eff.empty

/-- Closed instance of C3 at a three-byte archive. -/
theorem c3_manifest_roundtrip_witness :
    seal_manifest "audit_evidence_x.tar.gz" [1, 2, 3] =
        manifestLine "audit_evidence_x.tar.gz" (sha256hex [1, 2, 3]) ∧
      sha256_checksum [1, 2, 3] = sha256hex [1, 2, 3] :=
  c3_manifest_roundtrip [1, 2, 3] "audit_evidence_x.tar.gz"

/-- Closed instance of C4's general equation at a one-group artifact. -/
theorem c4_open_ingress_count_witness :
    count_open_security_groups (some [⟨[⟨[⟨some "0.0.0.0/0"⟩]⟩]⟩]) =
      (((([⟨[⟨[⟨some "0.0.0.0/0"⟩]⟩]⟩] : List SecurityGroup).map
          fun g => (g.ipPermissions.map fun pm => pm.ipRanges).flatten).flatten).filter
        (fun r => r.cidrIp == some "0.0.0.0/0")).length :=
  c4_open_ingress_count.1 [⟨[⟨[⟨some "0.0.0.0/0"⟩]⟩]⟩]

/-- Closed instance of C8's amended ordering at `cfg0`. -/
theorem c8_family_eager_creation_witness :
    allBefore isRootEv isRunEv (main_trace cfg0) = true ∧
      allBefore (fun e => e == Ev.mkDir "local") isRunEv (main_trace cfg0) = true ∧
      allBefore isRunLocEv (fun e => e == Ev.mkDir "aws") (main_trace cfg0) = true ∧
      allBefore (fun e => e == Ev.mkDir "aws") isRunAwsEv (main_trace cfg0) = true :=
  c8_family_eager_creation cfg0

/-- Closed instance of C9's amended statement at a one-file workspace. -/
theorem c9_archive_naming_witness :
    (zip_evidence "out/ws" [⟨"local/uname.txt", "x"⟩]).fst = "out/ws" ++ ".zip" ∧
      (zip_evidence "out/ws" [⟨"local/uname.txt", "x"⟩]).fst = (zip_evidence "out/ws" []).fst ∧
      (zip_evidence "out/ws" [⟨"local/uname.txt", "x"⟩]).snd = [⟨"local/uname.txt", "x"⟩] ∧
      (create_archive [⟨"local/uname.txt", "x"⟩] "ws" "2025-10-12_10-00-00" "hosta").fst =
        "audit_evidence_" ++ "2025-10-12_10-00-00" ++ "_" ++ "hosta" ++ ".tar.gz" ∧
      (create_archive [⟨"local/uname.txt", "x"⟩] "ws" "2025-10-12_10-00-00" "hosta").fst =
        (create_archive [] "other" "2025-10-12_10-00-00" "hosta").fst ∧
      (create_archive [⟨"local/uname.txt", "x"⟩] "ws" "2025-10-12_10-00-00" "hosta").snd.map
          WsFile.path =
        ([⟨"local/uname.txt", "x"⟩] : List WsFile).map (fun f => "ws" ++ "/" ++ f.path) ∧
      (create_archive [⟨"local/uname.txt", "x"⟩] "ws" "2025-10-12_10-00-00" "hosta").snd.map
          WsFile.content =
        ([⟨"local/uname.txt", "x"⟩] : List WsFile).map WsFile.content :=
  c9_archive_naming [⟨"local/uname.txt", "x"⟩] [] "out/ws" "ws" "other" "2025-10-12_10-00-00"
    "hosta"
